import Mathlib

/-!
# Verification of the arm_v5 desktop control interface

Shallow embedding of the parts of the `arm_v5` repository that the checked
claims are about:

* the wire codec (`com/src/proto/mod.rs`, `com/src/net/packet_writer.rs`,
  `com/src/net/packet_reader.rs`);
* the subscriber registry's reply-waiter operations
  (`com/src/client/receiver.rs`);
* the servo facade command vocabulary
  (`arm_interface/src-tauri/src/servo_com/commands.rs`, `mod.rs`);
* the linear motion curve (`arm_interface/src-tauri/src/arm/motion/linear.rs`);
* the heuristic inverse-kinematics solver
  (`kinematics/src/inverse/solvers/heuristic.rs`).

`f64` arithmetic is modelled by real arithmetic; byte streams by lists of
natural numbers below 256; the asynchronous reader/writer pairs by pure
functions from byte lists to values and remaining bytes.
-/

namespace ArmV5

/-! ## Wire codec

`com/src/proto/mod.rs` defines the packet type; `PacketWriter` and
`PacketReader` (in `com/src/net/`) serialize it.  Tokio's `write_u8`,
`write_u32`, `write_u64` emit big-endian bytes; the corresponding `read_*`
consume them. -/

/-- A byte on the wire, kept as a natural number below 256. -/
abbrev Byte := Nat

/-- The `Packet` enum of `com/src/proto/mod.rs`: `Event(EventCode, Vec<u8>)`,
`Command(CommandCode, Tag, Vec<u8>)`, `Reply(Tag, Vec<u8>)`.  The `EventCode`,
`CommandCode` and `Tag` newtypes are transparent wrappers around `u32`, `u32`
and `u64` and are inlined as naturals. -/
inductive Packet where
| event (code : Nat) (value : List Byte)
| command (code : Nat) (tag : Nat) (value : List Byte)
| reply (tag : Nat) (value : List Byte)
deriving DecidableEq, Repr

/-- `Packet::EVENT_IDENTIFIER = 0x00`. -/
def Packet.EVENT_IDENTIFIER : Byte := 0x00

/-- `Packet::COMMAND_IDENTIFIER = 0x01`. -/
def Packet.COMMAND_IDENTIFIER : Byte := 0x01

/-- `Packet::REPLY_IDENTIFIER = 0x02`. -/
def Packet.REPLY_IDENTIFIER : Byte := 0x02

/-- Big-endian bytes of a `u8` (tokio `write_u8`). -/
def u8Be (n : Nat) : List Byte := [n % 2 ^ 8]

/-- Big-endian bytes of a `u32` (tokio `write_u32`). -/
def u32Be (n : Nat) : List Byte :=
  [n / 2 ^ 24 % 2 ^ 8, n / 2 ^ 16 % 2 ^ 8, n / 2 ^ 8 % 2 ^ 8, n % 2 ^ 8]

/-- Big-endian bytes of a `u64` (tokio `write_u64`). -/
def u64Be (n : Nat) : List Byte :=
  [n / 2 ^ 56 % 2 ^ 8, n / 2 ^ 48 % 2 ^ 8, n / 2 ^ 40 % 2 ^ 8, n / 2 ^ 32 % 2 ^ 8,
   n / 2 ^ 24 % 2 ^ 8, n / 2 ^ 16 % 2 ^ 8, n / 2 ^ 8 % 2 ^ 8, n % 2 ^ 8]

/-- Value of a big-endian byte list. -/
def beVal (bs : List Byte) : Nat := bs.foldl (fun acc b => acc * 2 ^ 8 + b) 0

namespace PacketWriter

/-- `PacketWriter::write_value`: length as `u32`, then the raw bytes. -/
def write_value (value : List Byte) : List Byte := u32Be value.length ++ value

/-- `PacketWriter::write_tag`: the tag as `u64`. -/
def write_tag (tag : Nat) : List Byte := u64Be tag

/-- `PacketWriter::write_event`: identifier, code, value (the final `flush`
has no effect on the emitted bytes). -/
def write_event (code : Nat) (value : List Byte) : List Byte :=
  u8Be Packet.EVENT_IDENTIFIER ++ u32Be code ++ write_value value

/-- `PacketWriter::write_command`: identifier, code, tag, value. -/
def write_command (code tag : Nat) (value : List Byte) : List Byte :=
  u8Be Packet.COMMAND_IDENTIFIER ++ u32Be code ++ write_tag tag ++ write_value value

/-- `PacketWriter::write_reply`: identifier, tag, value. -/
def write_reply (tag : Nat) (value : List Byte) : List Byte :=
  u8Be Packet.REPLY_IDENTIFIER ++ write_tag tag ++ write_value value

/-- `PacketWriter::write`: dispatch on the packet variant. -/
def write : Packet → List Byte
| .event code value => write_event code value
| .command code tag value => write_command code tag value
| .reply tag value => write_reply tag value

end PacketWriter

/-- Errors surfaced by the transport model.  `ioEof` stands for the underlying
I/O error when the reader runs out of bytes; `generic` stands for
`Error::Generic(..)` (the message string is dropped). -/
inductive WireError where
| ioEof
| generic
deriving DecidableEq, Repr

namespace PacketReader

/-- Tokio `read_u8`: one byte from the stream. -/
def read_u8 : List Byte → Except WireError (Nat × List Byte)
| [] => .error .ioEof
| b :: rest => .ok (b, rest)

/-- `read_exact` into a slice of length `n`: consumes exactly `n` bytes or
fails with an I/O error. -/
def read_exact (n : Nat) (buf : List Byte) : Except WireError (List Byte × List Byte) :=
  if n ≤ buf.length then .ok (buf.take n, buf.drop n) else .error .ioEof

/-- Tokio `read_u32`: four big-endian bytes. -/
def read_u32 (buf : List Byte) : Except WireError (Nat × List Byte) :=
  (read_exact 4 buf).map fun p => (beVal p.1, p.2)

/-- Tokio `read_u64`: eight big-endian bytes. -/
def read_u64 (buf : List Byte) : Except WireError (Nat × List Byte) :=
  (read_exact 8 buf).map fun p => (beVal p.1, p.2)

/-- `PacketReader::read_value` (packet_reader.rs lines 23-33).  The source
reads the length, then allocates `Vec::with_capacity(len)` — a vector whose
*length* is 0 — and calls `read_exact(&mut value)` on it, which therefore
reads `value.len() = 0` bytes.  The declared payload bytes are never
consumed. -/
def read_value (buf : List Byte) : Except WireError (List Byte × List Byte) :=
  (read_u32 buf).bind fun lenAndRest =>
    let value : List Byte := []
    (read_exact value.length lenAndRest.2).map fun p => (p.1, p.2)

/-- `PacketReader::read_tag`. -/
def read_tag (buf : List Byte) : Except WireError (Nat × List Byte) :=
  read_u64 buf

/-- `PacketReader::read_event`. -/
def read_event (buf : List Byte) : Except WireError (Packet × List Byte) :=
  (read_u32 buf).bind fun c =>
    (read_value c.2).map fun v => (.event c.1 v.1, v.2)

/-- `PacketReader::read_command`. -/
def read_command (buf : List Byte) : Except WireError (Packet × List Byte) :=
  (read_u32 buf).bind fun c =>
    (read_tag c.2).bind fun t =>
      (read_value t.2).map fun v => (.command c.1 t.1 v.1, v.2)

/-- `PacketReader::read_reply`. -/
def read_reply (buf : List Byte) : Except WireError (Packet × List Byte) :=
  (read_tag buf).bind fun t =>
    (read_value t.2).map fun v => (.reply t.1 v.1, v.2)

/-- `PacketReader::read`: dispatch on the identifier byte; unknown identifiers
fail with `Error::Generic("Invalid identifier: ..")`. -/
def read (buf : List Byte) : Except WireError (Packet × List Byte) :=
  (read_u8 buf).bind fun p =>
    if p.1 = Packet.EVENT_IDENTIFIER then read_event p.2
    else if p.1 = Packet.COMMAND_IDENTIFIER then read_command p.2
    else if p.1 = Packet.REPLY_IDENTIFIER then read_reply p.2
    else .error .generic

end PacketReader

/-! ## Subscriber registry (com/src/client/receiver.rs)

The reply-waiter map `HashMap<Tag, ReplySubscriber>` is modelled as an
association list with the subscriber type held abstract; `entry(..).or_insert`
and `remove` are reproduced on it. -/

/-- The reply-waiter map.  `α` stands for `ReplySubscriber` (one-shot channel
or closure), which the registry logic never inspects. -/
abbrev ReplyMap (α : Type) := List (Nat × α)

/-- `HashMap::contains_key`-style membership. -/
def ReplyMap.contains_key {α : Type} (m : ReplyMap α) (tag : Nat) : Bool :=
  m.any fun p => p.1 == tag

/-- `HashMap::remove`: drop the entry with the given key. -/
def ReplyMap.removeKey {α : Type} (m : ReplyMap α) (tag : Nat) : ReplyMap α :=
  m.filter fun p => p.1 != tag

namespace Subscribers

/-- `Subscribers::subscribe_to_reply` (receiver.rs lines 238-249):
`reply_subscribers.entry(tag).or_insert(subscriber)` — inserts only when the
tag is absent, keeps the existing entry otherwise — and returns `Ok(())`
unconditionally.  Result: (returned value, map afterwards). -/
def subscribe_to_reply {α : Type} (m : ReplyMap α) (tag : Nat) (subscriber : α) :
    Except WireError Unit × ReplyMap α :=
  (.ok (), if ReplyMap.contains_key m tag then m else (tag, subscriber) :: m)

/-- `Subscribers::unsubscribe_from_reply` (receiver.rs lines 285-298):
removes the entry, then returns `Err(..)` if `remove` yielded `Some(_)` and
`Ok(())` if it yielded `None`.  Result: (returned value, map afterwards). -/
def unsubscribe_from_reply {α : Type} (m : ReplyMap α) (tag : Nat) :
    Except WireError Unit × ReplyMap α :=
  if ReplyMap.contains_key m tag then (.error .generic, ReplyMap.removeKey m tag)
  else (.ok (), m)

/-- `Subscribers::take_reply_subscriber_with_tag` (receiver.rs lines 122-125):
`remove` returning the held subscriber, if any. -/
def take_reply_subscriber_with_tag {α : Type} (m : ReplyMap α) (tag : Nat) :
    Option α × ReplyMap α :=
  ((m.find? fun p => p.1 == tag).map Prod.snd, ReplyMap.removeKey m tag)

end Subscribers

/-! ## Servo facade commands (arm_interface/src-tauri/src/servo_com) -/

/-- The four client-to-servo commands of `servo_com/commands.rs`. -/
inductive ServoCommand where
| pushIntoPoseBuffer
| clearPoseBuffer
| getPoseBufferCapacity
| getPoseBufferAvailableSpace
deriving DecidableEq, Repr

/-- The `Command::code` implementations of `servo_com/commands.rs`. -/
def ServoCommand.code : ServoCommand → Nat
| .pushIntoPoseBuffer => 0x00000100
| .clearPoseBuffer => 0x00000101
| .getPoseBufferCapacity => 0x00000102
| .getPoseBufferAvailableSpace => 0x00000103

/-- `GetPoseBufferCapacityReply` of `servo_com/replies.rs`. -/
structure GetPoseBufferCapacityReply where
  capacity : Nat

/-- The command `Handle::get_buffer_capacity` (servo_com/mod.rs lines 173-187)
constructs and hands to `serde_write_cmd_wc`, i.e. the command whose code goes
on the wire: the source builds `ClearPoseBufferCommand::new()`. -/
def get_buffer_capacity_sent : ServoCommand := .clearPoseBuffer

/-- The value `Handle::get_buffer_capacity` returns, given the decoded
`GetPoseBufferCapacityReply`: the `capacity` field. -/
def get_buffer_capacity_return (reply : GetPoseBufferCapacityReply) : Nat :=
  reply.capacity

/-! ## Vectors

nalgebra's `Vector3<f64>`, with `f64` arithmetic modelled by the reals. -/

/-- A 3-vector of reals. -/
structure Vec3 where
  x : ℝ
  y : ℝ
  z : ℝ

/-- Componentwise vector addition. -/
def Vec3.add (a b : Vec3) : Vec3 := ⟨a.x + b.x, a.y + b.y, a.z + b.z⟩

/-- Componentwise vector subtraction. -/
def Vec3.sub (a b : Vec3) : Vec3 := ⟨a.x - b.x, a.y - b.y, a.z - b.z⟩

/-- Vector-by-scalar division (nalgebra `v / c`). -/
noncomputable def Vec3.divs (v : Vec3) (c : ℝ) : Vec3 := ⟨v.x / c, v.y / c, v.z / c⟩

/-- Vector-times-scalar multiplication (nalgebra `v * t`). -/
def Vec3.muls (v : Vec3) (t : ℝ) : Vec3 := ⟨v.x * t, v.y * t, v.z * t⟩

/-- `Vector3::zeros()`. -/
def Vec3.zero : Vec3 := ⟨0, 0, 0⟩

/-- nalgebra `magnitude`: the Euclidean norm. -/
noncomputable def Vec3.magnitude (v : Vec3) : ℝ :=
  Real.sqrt (v.x ^ 2 + v.y ^ 2 + v.z ^ 2)

/-! ## Linear motion curve (arm_interface/src-tauri/src/arm/motion/linear.rs) -/

/-- The `LinearMotion` struct: target position, original position (both in
meters) and speed (meters/second). -/
structure LinearMotion where
  target_position : Vec3
  original_position : Vec3
  speed : ℝ

open Classical in
/-- `LinearMotion::interpolate` (linear.rs lines 23-42), past its
`assert!(t >= 0.0)` (carried as a hypothesis by theorems that need it):
`delta_position = original_position - target_position`;
`duration = delta_position.magnitude() / speed`; `None` when `t > duration`,
otherwise `Some((delta_position / duration) * t)`. -/
noncomputable def LinearMotion.interpolate (m : LinearMotion) (t : ℝ) : Option Vec3 :=
  let delta_position := Vec3.sub m.original_position m.target_position
  let duration := Vec3.magnitude delta_position / m.speed
  if t > duration then none
  else some (Vec3.muls (Vec3.divs delta_position duration) t)

/-! ## Heuristic IK solver (kinematics/src/inverse/solvers/heuristic.rs)

The state and parameter types (`KinematicState`, `KinematicParameters` of
model.rs, which is not among the sources) are held abstract: the solver only
clones states and passes both through to its algorithms.  `forward_algorithm`
stands for the `limb4_position_vector` method — the only method of
`ForwardKinematicAlgorithm` the solver calls — and `inverse_algorithm` for
the `translate_limb4_end_effector` method of `InverseKinematicAlgorithm`. -/

/-- Modelled from the spec: `KinematicError` — the kinematics error type,
whose defining file is not among the sources.  Spec §7 names
`InversionFailure` (the inverse algorithm could not produce an incremental
step) as the kind the solver propagates. -/
inductive KinematicError where
| inversionFailure
deriving DecidableEq, Repr

/-- `IKSolverResult` of kinematics/src/inverse/solvers/mod.rs, generalized
over the state type `S`. -/
inductive IKSolverResult (S : Type) where
| Unreachable
| Reached (iterations : Nat) (delta_position_magnitude : ℝ) (new_state : S)

/-- The `HeuristicSolver` struct of heuristic.rs: the two pluggable
algorithms, the threshold ε and the iteration cap. -/
structure HeuristicSolver (P S : Type) where
  inverse_algorithm : P → S → Vec3 → Except KinematicError S
  forward_algorithm : P → S → Vec3
  threshold : ℝ
  max_iterations : Nat

open Classical in
/-- The `while iterations < self.max_iterations` loop of
`HeuristicSolver::translate_limb4_end_effector` (heuristic.rs lines 99-128),
recursing on the remaining budget `max_iterations - iterations`: compute the
current position, the delta to the target and its magnitude; return
`Reached` when the magnitude is strictly below the threshold; otherwise take
one inverse step (propagating its error) and continue. -/
noncomputable def translate_loop {P S : Type} (solver : HeuristicSolver P S) (params : P)
    (target_position : Vec3) :
    Nat → Nat → S → Except KinematicError (IKSolverResult S)
| 0, _, _ => .ok .Unreachable
| remaining + 1, iterations, new_state =>
  let current_position := solver.forward_algorithm params new_state
  let delta_position := Vec3.sub target_position current_position
  let delta_position_magnitude := Vec3.magnitude delta_position
  if delta_position_magnitude < solver.threshold then
    .ok (.Reached iterations delta_position_magnitude new_state)
  else
    match solver.inverse_algorithm params new_state delta_position with
    | .error e => .error e
    | .ok next_state =>
      translate_loop solver params target_position remaining (iterations + 1) next_state

/-- `HeuristicSolver::translate_limb4_end_effector` (heuristic.rs lines
86-131): run the loop from the cloned input state with `iterations = 0`. -/
noncomputable def translate_limb4_end_effector {P S : Type} (solver : HeuristicSolver P S)
    (params : P) (state : S) (target_position : Vec3) :
    Except KinematicError (IKSolverResult S) :=
  translate_loop solver params target_position solver.max_iterations 0 state

/-- `HeuristicSolver::rotate_limb4_end_effector` (heuristic.rs lines 133-140):
ignores its parameters, state and target and immediately returns
`Ok(IKSolverResult::Unreachable)`. -/
def rotate_limb4_end_effector {P S : Type} (_solver : HeuristicSolver P S)
    (_params : P) (_state : S) (_target_position : Vec3) :
    Except KinematicError (IKSolverResult S) :=
  .ok .Unreachable

open Classical in
/-- Instrumentation of `translate_loop` for the iteration-bound claims: the
same recursion, additionally counting the inverse-algorithm steps taken. -/
noncomputable def translate_loop_count {P S : Type} (solver : HeuristicSolver P S) (params : P)
    (target_position : Vec3) :
    Nat → Nat → S → Except KinematicError (IKSolverResult S) × Nat
| 0, _, _ => (.ok .Unreachable, 0)
| remaining + 1, iterations, new_state =>
  let current_position := solver.forward_algorithm params new_state
  let delta_position := Vec3.sub target_position current_position
  let delta_position_magnitude := Vec3.magnitude delta_position
  if delta_position_magnitude < solver.threshold then
    (.ok (.Reached iterations delta_position_magnitude new_state), 0)
  else
    match solver.inverse_algorithm params new_state delta_position with
    | .error e => (.error e, 1)
    | .ok next_state =>
      let r := translate_loop_count solver params target_position remaining (iterations + 1) next_state
      (r.1, r.2 + 1)

/-- Number of inverse-algorithm steps `translate_limb4_end_effector`
performs. -/
noncomputable def translate_steps {P S : Type} (solver : HeuristicSolver P S)
    (params : P) (state : S) (target_position : Vec3) : Nat :=
  (translate_loop_count solver params target_position solver.max_iterations 0 state).2

/-- A solver whose algorithms never move: the forward algorithm reads the
state as a position, the inverse step returns the state unchanged; threshold
1, cap 10. -/
def stationarySolver : HeuristicSolver Unit Vec3 :=
  ⟨fun _ s _ => .ok s, fun _ s => s, 1, 10⟩

/-- The identity-algorithm solver of the spec's convergence scenario:
`f(s) = s` with the state read as a position, `g(s, Δ) = s + Δ`. -/
def identitySolver (threshold : ℝ) (max_iterations : Nat) : HeuristicSolver Unit Vec3 :=
  ⟨fun _ s d => .ok (Vec3.add s d), fun _ s => s, threshold, max_iterations⟩

/-- A solver that can never beat its threshold 0 (no magnitude is below 0)
with a total, stationary inverse algorithm; cap 10. -/
def neverConvergingSolver : HeuristicSolver Unit Unit :=
  ⟨fun _ s _ => .ok s, fun _ _ => Vec3.zero, 0, 10⟩

end ArmV5

namespace ArmV5

/-! ## Claims about the codec and the registry -/

/-- C1: the spec claims `decode(encode(p)) == p` for every packet.  The
decoder's `read_value` allocates `Vec::with_capacity(len)` (length 0) and
`read_exact` therefore reads zero payload bytes, so any packet with a
non-empty payload decodes to one with an empty payload, with the payload
bytes left unconsumed: for `p = Event(code=1, payload=[0xAA])`,
`decode(encode(p))` yields `Event(1, [])` with the byte `0xAA` left over. -/
theorem c1_roundtrip_fails_on_nonempty_payload :
    PacketReader.read (PacketWriter.write (.event 1 [0xAA])) =
      .ok (.event 1 [], [0xAA]) ∧
    (Packet.event 1 [] : Packet) ≠ .event 1 [0xAA] :=
  ⟨rfl, by decide⟩

/-- C3: encoding `Command(code=0x102, tag=7, payload=[])` yields exactly the
17 bytes `01 00 00 01 02 00 00 00 00 00 00 00 07 00 00 00 00`: identifier 1,
code as big-endian u32, tag as big-endian u64, length 0 as big-endian u32. -/
theorem c3_command_framing_bytes :
    PacketWriter.write (.command 0x102 7 []) =
      [0x01, 0x00, 0x00, 0x01, 0x02,
       0x00, 0x00, 0x00, 0x00, 0x00, 0x00, 0x00, 0x07,
       0x00, 0x00, 0x00, 0x00] ∧
    (PacketWriter.write (.command 0x102 7 [])).length = 17 :=
  ⟨by decide, by decide⟩

/-- C8: the spec claims `unsubscribe_from_reply` returns `Ok` exactly when a
waiter with that tag existed and was removed, and `Err` otherwise.  The
source inverts this: on the map `[(7, _)]` the waiter is removed yet the
call returns `Err`, and on the empty map the call returns `Ok`. -/
theorem c8_unsubscribe_result_inverted :
    (Subscribers.unsubscribe_from_reply ([(7, ())] : ReplyMap Unit) 7).1 =
      .error .generic ∧
    (Subscribers.unsubscribe_from_reply ([(7, ())] : ReplyMap Unit) 7).2 = [] ∧
    (Subscribers.unsubscribe_from_reply ([] : ReplyMap Unit) 7).1 = .ok () :=
  ⟨rfl, rfl, rfl⟩

/-- C9 counterexample: the spec claims `subscribe_to_reply` on a tag that
already has a waiter fails with an error; on the map `[(7, false)]` the call
for tag 7 returns `Ok(())`. -/
theorem c9_duplicate_subscribe_returns_ok :
    (Subscribers.subscribe_to_reply ([(7, false)] : ReplyMap Bool) 7 true).1 =
      .ok () :=
  rfl

/-- C9 amended: `subscribe_to_reply` on a tag that already has a registered
waiter returns `Ok(())` and leaves the registry unchanged — the new sink is
discarded and the existing waiter kept, so at most one waiter per tag is
preserved, but no error is reported. -/
theorem c9_duplicate_subscribe_keeps_existing {α : Type} (m : ReplyMap α)
    (tag : Nat) (s : α) (h : ReplyMap.contains_key m tag = true) :
    Subscribers.subscribe_to_reply m tag s = (.ok (), m) := by
  simp [Subscribers.subscribe_to_reply, h]

/-- C9 witness: the amended statement at the concrete registry `[(7, false)]`. -/
theorem c9_duplicate_subscribe_keeps_existing_witness :
    ReplyMap.contains_key ([(7, false)] : ReplyMap Bool) 7 = true ∧
    Subscribers.subscribe_to_reply ([(7, false)] : ReplyMap Bool) 7 true =
      (.ok (), [(7, false)]) :=
  ⟨by decide, c9_duplicate_subscribe_keeps_existing _ 7 true (by decide)⟩

/-- C7: the spec claims `get_buffer_capacity` sends a
`GetPoseBufferCapacityCommand` (code 0x00000102).  The source constructs a
`ClearPoseBufferCommand`, so the code sent on the wire is 0x00000101, not
0x00000102; the returned value is indeed the `capacity` field of the reply. -/
theorem c7_get_buffer_capacity_sends_clear :
    get_buffer_capacity_sent.code = 0x00000101 ∧
    get_buffer_capacity_sent ≠ .getPoseBufferCapacity ∧
    ServoCommand.code .getPoseBufferCapacity = 0x00000102 ∧
    (∀ reply : GetPoseBufferCapacityReply,
      get_buffer_capacity_return reply = reply.capacity) := by
  exact ⟨rfl, by decide, rfl, fun _ => rfl⟩

/-! ## Vector norm facts -/

/-- The Euclidean norm is nonnegative. -/
theorem Vec3.magnitude_nonneg (v : Vec3) : 0 ≤ Vec3.magnitude v :=
  Real.sqrt_nonneg _

/-- The norm of the difference of a vector with itself vanishes. -/
theorem Vec3.magnitude_sub_self (v : Vec3) : Vec3.magnitude (Vec3.sub v v) = 0 := by
  simp [Vec3.sub, Vec3.magnitude]

/-- Norm of the unit displacement from the origin along x. -/
theorem Vec3.magnitude_unit_x :
    Vec3.magnitude (Vec3.sub ⟨1, 0, 0⟩ ⟨0, 0, 0⟩) = 1 := by
  norm_num [Vec3.sub, Vec3.magnitude, Real.sqrt_one]

/-- Adding a difference back recovers the target vector. -/
theorem Vec3.add_sub_cancelv (p q : Vec3) : Vec3.add p (Vec3.sub q p) = q := by
  cases p; cases q
  simp only [Vec3.add, Vec3.sub, Vec3.mk.injEq]
  refine ⟨by ring, by ring, by ring⟩

/-! ## Loop lemmas for the heuristic solver -/

/-- The instrumented loop computes the same result as the solver loop. -/
theorem translate_loop_count_fst {P S : Type} (solver : HeuristicSolver P S) (params : P)
    (target_position : Vec3) :
    ∀ (fuel iterations : Nat) (st : S),
      (translate_loop_count solver params target_position fuel iterations st).1 =
        translate_loop solver params target_position fuel iterations st := by
  intro fuel
  induction fuel with
  | zero => intro _ _; rfl
  | succ n ih =>
    intro iterations st
    simp only [translate_loop_count, translate_loop]
    split
    · rfl
    · split
      · rfl
      · exact ih _ _

/-- The loop takes at most `fuel` inverse steps. -/
theorem translate_loop_count_le {P S : Type} (solver : HeuristicSolver P S) (params : P)
    (target_position : Vec3) :
    ∀ (fuel iterations : Nat) (st : S),
      (translate_loop_count solver params target_position fuel iterations st).2 ≤ fuel := by
  intro fuel
  induction fuel with
  | zero => intro _ _; exact Nat.le_refl 0
  | succ n ih =>
    intro iterations st
    simp only [translate_loop_count]
    split
    · exact Nat.zero_le _
    · split
      · exact Nat.succ_le_succ (Nat.zero_le n)
      · exact Nat.succ_le_succ (ih _ _)

/-- With a threshold no magnitude can beat and a total inverse algorithm, the
loop exhausts its entire budget and reports `Unreachable`. -/
theorem translate_loop_count_exhausts {P S : Type} (solver : HeuristicSolver P S)
    (params : P) (target_position : Vec3)
    (hthr : solver.threshold ≤ 0)
    (hinv : ∀ (s : S) (d : Vec3), ∃ s', solver.inverse_algorithm params s d = .ok s') :
    ∀ (fuel iterations : Nat) (st : S),
      translate_loop_count solver params target_position fuel iterations st =
        (.ok .Unreachable, fuel) := by
  intro fuel
  induction fuel with
  | zero => intro _ _; rfl
  | succ n ih =>
    intro iterations st
    obtain ⟨s', hs'⟩ :=
      hinv st (Vec3.sub target_position (solver.forward_algorithm params st))
    have hnot : ¬ Vec3.magnitude
        (Vec3.sub target_position (solver.forward_algorithm params st)) < solver.threshold :=
      fun h => absurd (lt_of_lt_of_le h hthr) (not_lt.mpr (Vec3.magnitude_nonneg _))
    simp only [translate_loop_count, hnot, if_false, hs', ih]

/-- A state the inverse algorithm fixes, whose distance to the target is not
strictly below the threshold, makes the loop spin until `Unreachable`. -/
theorem translate_loop_stationary {P S : Type} (solver : HeuristicSolver P S)
    (params : P) (target_position : Vec3) (st : S)
    (hfix : solver.inverse_algorithm params st
      (Vec3.sub target_position (solver.forward_algorithm params st)) = .ok st)
    (hge : ¬ Vec3.magnitude
      (Vec3.sub target_position (solver.forward_algorithm params st)) < solver.threshold) :
    ∀ (fuel iterations : Nat),
      translate_loop solver params target_position fuel iterations st = .ok .Unreachable := by
  intro fuel
  induction fuel with
  | zero => intro _; rfl
  | succ n ih =>
    intro iterations
    simp only [translate_loop, hge, if_false, hfix]
    exact ih _

/-! ## Claims about the solver and the linear curve -/

/-- C4: the heuristic solver always terminates within its iteration cap: for
any algorithms, parameters, state and target it performs at most
`max_iterations` inverse steps; and with threshold ε = 0, cap 10 and
algorithms that never fail (hence never bring the error below threshold,
since no magnitude is below 0), it returns `Unreachable` after exactly 10
iterations. -/
theorem c4_solver_bounded_work {P S : Type} (solver : HeuristicSolver P S)
    (params : P) (state : S) (target_position : Vec3) :
    translate_steps solver params state target_position ≤ solver.max_iterations ∧
    (solver.threshold = 0 → solver.max_iterations = 10 →
      (∀ (s : S) (d : Vec3), ∃ s', solver.inverse_algorithm params s d = .ok s') →
      translate_limb4_end_effector solver params state target_position = .ok .Unreachable ∧
        translate_steps solver params state target_position = 10) := by
  constructor
  · exact translate_loop_count_le solver params target_position _ _ _
  · intro h0 h10 hinv
    have hex := translate_loop_count_exhausts solver params target_position
      (le_of_eq h0) hinv solver.max_iterations 0 state
    constructor
    · rw [translate_limb4_end_effector,
        ← translate_loop_count_fst solver params target_position, hex]
    · rw [translate_steps, hex, h10]

/-- C4 witness: the bound and the exhaustion scenario at the concrete solver
with threshold 0, cap 10 and total stationary algorithms. -/
theorem c4_solver_bounded_work_witness :
    translate_steps neverConvergingSolver () () Vec3.zero ≤ 10 ∧
    translate_limb4_end_effector neverConvergingSolver () () Vec3.zero = .ok .Unreachable ∧
    translate_steps neverConvergingSolver () () Vec3.zero = 10 :=
  ⟨(c4_solver_bounded_work neverConvergingSolver () () Vec3.zero).1,
   ((c4_solver_bounded_work neverConvergingSolver () () Vec3.zero).2 rfl rfl
     fun s _ => ⟨s, rfl⟩).1,
   ((c4_solver_bounded_work neverConvergingSolver () () Vec3.zero).2 rfl rfl
     fun s _ => ⟨s, rfl⟩).2⟩

/-- C5 counterexample: with the identity forward algorithm, a stationary
inverse step, threshold ε = 1 and start `(0,0,0)`, the distance to the target
`(1,0,0)` equals ε exactly at iteration 0, yet the solver does not return
`Reached` there — it keeps iterating and ends `Unreachable`. -/
theorem c5_exact_threshold_counterexample :
    Vec3.magnitude (Vec3.sub ⟨1, 0, 0⟩ (stationarySolver.forward_algorithm () ⟨0, 0, 0⟩)) =
      stationarySolver.threshold ∧
    translate_limb4_end_effector stationarySolver () ⟨0, 0, 0⟩ ⟨1, 0, 0⟩ =
      .ok .Unreachable := by
  refine ⟨Vec3.magnitude_unit_x, ?_⟩
  exact translate_loop_stationary stationarySolver () ⟨1, 0, 0⟩ ⟨0, 0, 0⟩ rfl
    (by rw [show stationarySolver.forward_algorithm () ⟨0,0,0⟩ = (⟨0,0,0⟩ : Vec3) from rfl,
          Vec3.magnitude_unit_x]
        exact lt_irrefl _) 10 0

/-- C5 amended: when the distance equals the threshold exactly, the strict
comparison `<` fails, so the solver does not return `Reached` at that
iteration; it takes the inverse step and continues with the next iteration
(`Reached` requires a distance strictly below ε). -/
theorem c5_exact_threshold_continues {P S : Type} (solver : HeuristicSolver P S)
    (params : P) (target_position : Vec3) (st : S) (fuel iterations : Nat)
    (h : Vec3.magnitude
      (Vec3.sub target_position (solver.forward_algorithm params st)) = solver.threshold) :
    translate_loop solver params target_position (fuel + 1) iterations st =
      match solver.inverse_algorithm params st
        (Vec3.sub target_position (solver.forward_algorithm params st)) with
      | .error e => .error e
      | .ok next_state =>
        translate_loop solver params target_position fuel (iterations + 1) next_state := by
  have hnot : ¬ Vec3.magnitude
      (Vec3.sub target_position (solver.forward_algorithm params st)) < solver.threshold := by
    rw [h]; exact lt_irrefl _
  simp only [translate_loop, hnot, if_false]

/-- C5 witness: the amended statement at the stationary solver at exact
distance ε from the target. -/
theorem c5_exact_threshold_continues_witness :
    Vec3.magnitude (Vec3.sub ⟨1, 0, 0⟩ (stationarySolver.forward_algorithm () ⟨0, 0, 0⟩)) =
      stationarySolver.threshold ∧
    translate_loop stationarySolver () ⟨1, 0, 0⟩ 10 0 ⟨0, 0, 0⟩ =
      match stationarySolver.inverse_algorithm () ⟨0, 0, 0⟩
        (Vec3.sub ⟨1, 0, 0⟩ (stationarySolver.forward_algorithm () ⟨0, 0, 0⟩)) with
      | .error e => .error e
      | .ok next_state => translate_loop stationarySolver () ⟨1, 0, 0⟩ 9 1 next_state :=
  ⟨Vec3.magnitude_unit_x,
   c5_exact_threshold_continues stationarySolver () ⟨1, 0, 0⟩ ⟨0, 0, 0⟩ 9 0
     Vec3.magnitude_unit_x⟩

/-- C6: with the identity forward algorithm (state read as a position), the
identity inverse step `g(s, Δ) = s + Δ`, a start `p0` and target at distance
at least the (positive) threshold, and an iteration cap of at least 2, the
solver returns `Reached` after exactly one iteration with residual magnitude
0 and final state equal to the target.  (The solver defaults ε = 0.01 and
cap 200 satisfy the two side conditions.) -/
theorem c6_identity_converges (thr : ℝ) (cap : Nat) (p0 target_position : Vec3)
    (hthr : 0 < thr) (hge : thr ≤ Vec3.magnitude (Vec3.sub target_position p0))
    (hcap : 2 ≤ cap) :
    translate_limb4_end_effector (identitySolver thr cap) () p0 target_position =
      .ok (.Reached 1 0 target_position) := by
  obtain ⟨n, rfl⟩ : ∃ n, cap = n + 2 := ⟨cap - 2, by omega⟩
  have hfwd : ∀ s : Vec3, (identitySolver thr (n + 2)).forward_algorithm () s = s :=
    fun _ => rfl
  have hnot : ¬ Vec3.magnitude
      (Vec3.sub target_position ((identitySolver thr (n + 2)).forward_algorithm () p0)) <
        (identitySolver thr (n + 2)).threshold := by
    rw [hfwd]
    exact not_lt.mpr hge
  have hstep : (identitySolver thr (n + 2)).inverse_algorithm () p0
      (Vec3.sub target_position ((identitySolver thr (n + 2)).forward_algorithm () p0)) =
        .ok target_position := by
    show Except.ok (Vec3.add p0 (Vec3.sub target_position p0)) = _
    rw [Vec3.add_sub_cancelv]
  have hend : Vec3.magnitude
      (Vec3.sub target_position ((identitySolver thr (n + 2)).forward_algorithm ()
        target_position)) < (identitySolver thr (n + 2)).threshold := by
    rw [hfwd, Vec3.magnitude_sub_self]
    exact hthr
  rw [translate_limb4_end_effector]
  show translate_loop (identitySolver thr (n + 2)) () target_position ((n + 1) + 1) 0 p0 = _
  rw [translate_loop]
  simp only [hnot, if_false, hstep]
  show translate_loop (identitySolver thr (n + 2)) () target_position (n + 1) 1
    target_position = _
  rw [translate_loop]
  simp only [hend, if_true, Vec3.magnitude_sub_self]
  rw [show Vec3.magnitude (Vec3.sub target_position ((identitySolver thr (n + 2)).forward_algorithm () target_position)) = 0 from by rw [hfwd, Vec3.magnitude_sub_self]]

/-- C6 witness: the convergence scenario at threshold 1, cap 2, start the
origin and target the unit x vector. -/
theorem c6_identity_converges_witness :
    (0 : ℝ) < 1 ∧ (1 : ℝ) ≤ Vec3.magnitude (Vec3.sub ⟨1, 0, 0⟩ ⟨0, 0, 0⟩) ∧ 2 ≤ 2 ∧
    translate_limb4_end_effector (identitySolver 1 2) () ⟨0, 0, 0⟩ ⟨1, 0, 0⟩ =
      .ok (.Reached 1 0 ⟨1, 0, 0⟩) :=
  ⟨one_pos, le_of_eq Vec3.magnitude_unit_x.symm, le_refl 2,
   c6_identity_converges 1 2 ⟨0, 0, 0⟩ ⟨1, 0, 0⟩ one_pos
     (le_of_eq Vec3.magnitude_unit_x.symm) (le_refl 2)⟩

/-- C10: `rotate_limb4_end_effector` returns `Ok(Unreachable)` for every
solver, parameters, state and target — independently of the forward and
inverse algorithms, which its body never invokes. -/
theorem c10_rotate_is_stub {P S : Type} (solver : HeuristicSolver P S)
    (params : P) (state : S) (target_position : Vec3) :
    rotate_limb4_end_effector solver params state target_position = .ok .Unreachable :=
  rfl

/-- C2: the spec claims `interpolate(t) = p0 + (p1 - p0)·t/duration`, so for
`p0 = (0,0,0)`, `p1 = (1,0,0)`, `v = 0.5` the position at `t = 1` would be
`(0.5, 0, 0)`.  The source computes `delta_position = original - target`
(sign inverted) and returns `delta_position/duration · t` without adding
`p0`: at `t = 1` it yields `(-0.5, 0, 0)`.  The duration is as claimed:
at `t = 2.5 > 2` the motion reports completion (`None`). -/
theorem c2_linear_interpolate_sign_inverted :
    LinearMotion.interpolate ⟨⟨1, 0, 0⟩, ⟨0, 0, 0⟩, 1 / 2⟩ 1 =
      some ⟨-(1 / 2), 0, 0⟩ ∧
    (some (Vec3.mk (-(1 / 2)) 0 0) ≠ some (Vec3.mk (1 / 2) 0 0)) ∧
    LinearMotion.interpolate ⟨⟨1, 0, 0⟩, ⟨0, 0, 0⟩, 1 / 2⟩ (5 / 2) = none := by
  have hdelta : Vec3.sub ⟨0, 0, 0⟩ ⟨1, 0, 0⟩ = (⟨-1, 0, 0⟩ : Vec3) := by
    simp only [Vec3.sub, Vec3.mk.injEq]
    norm_num
  have hmag : Vec3.magnitude ⟨-1, 0, 0⟩ = 1 := by
    norm_num [Vec3.magnitude, Real.sqrt_one]
  refine ⟨?_, ?_, ?_⟩
  · simp only [LinearMotion.interpolate, hdelta, hmag]
    rw [if_neg (by norm_num)]
    simp only [Vec3.divs, Vec3.muls, Option.some.injEq, Vec3.mk.injEq]
    norm_num
  · simp only [ne_eq, Option.some.injEq, Vec3.mk.injEq]
    norm_num
  · simp only [LinearMotion.interpolate, hdelta, hmag]
    rw [if_pos (by norm_num)]

end ArmV5
